import Mathlib

/-!
Verification of the collaborative-whiteboard real-time sync server.

The development shallowly embeds the server of the repository:
* the SQLite-backed `DatabaseManager` (tables `rooms`, `users`, `room_users`,
  `whiteboard_elements`) as lists of rows inside a `DBState`;
* the socket event handlers (`join-room`, `leave-room`, `drawing-start`,
  `drawing-update`, `drawing-end`, `text-added`, `clear-canvas`,
  `cursor-move`) as pure functions from a `ServerState` to a new state plus
  the ordered list of durable writes and broadcasts they perform.

SQL conventions mirrored here: `INSERT OR REPLACE` first deletes every row
that collides on the primary key and then appends the fresh row (so the fresh
row sits at the end, in insertion order); `DELETE ... WHERE` is a filter;
`ORDER BY timestamp` is modelled as a stable sort on the stored timestamp
column (stable sorting models the usual rowid tie-breaking).
-/

/-- A canvas element as sent by clients.  The geometry, style, owning user id
and variant tag play no role in any verified property, so they are collapsed
into one opaque `payload` field; `id` and `timestamp` are the fields the
server actually inspects. -/
structure DrawingElement where
  id : String
  timestamp : Nat
  payload : String
deriving DecidableEq

/-- One row of the `whiteboard_elements` table:
`(id TEXT PRIMARY KEY, roomId, elementData, timestamp)`.  `elementData`
holds the serialized element (`JSON.stringify(element)` in the source). -/
structure ElementRow where
  id : String
  roomId : String
  elementData : DrawingElement
  timestamp : Nat
deriving DecidableEq

/-- One row of the `rooms` table.  A `none` password models SQL `NULL`. -/
structure RoomRow where
  id : String
  name : String
  isPrivate : Bool
  password : Option String
  permissions : String
  createdAt : Nat
deriving DecidableEq

/-- One row of the `users` table. -/
structure UserRow where
  id : String
  name : String
  color : String
  socketId : String
  createdAt : Nat
deriving DecidableEq

/-- One row of the `room_users` table, primary key `(roomId, userId)`. -/
structure RoomUserRow where
  roomId : String
  userId : String
  joinedAt : Nat
deriving DecidableEq

/-- The state held by `DatabaseManager`: the four SQLite tables, each as a
list of rows in insertion order. -/
structure DBState where
  rooms : List RoomRow
  users : List UserRow
  roomUsers : List RoomUserRow
  elements : List ElementRow
deriving DecidableEq

/-- The empty database, as produced by `createTables` on a fresh file. -/
def emptyDB : DBState := ⟨[], [], [], []⟩

/-- The `User` view returned to clients (no `createdAt`). -/
structure User where
  id : String
  name : String
  color : String
  socketId : String
deriving DecidableEq

/-- The `Room` view returned to clients, including the joined member list. -/
structure Room where
  id : String
  name : String
  isPrivate : Bool
  password : Option String
  permissions : String
  createdAt : Nat
  users : List User
deriving DecidableEq

/-- The row `saveElement` writes for element `e` in room `roomId`. -/
def elementRowOf (roomId : String) (e : DrawingElement) : ElementRow :=
  ⟨e.id, roomId, e, e.timestamp⟩

/-- `DatabaseManager.saveElement`: `INSERT OR REPLACE INTO whiteboard_elements
(id, roomId, elementData, timestamp) VALUES (element.id, roomId,
JSON.stringify(element), element.timestamp)`.  The replace deletes any row
with the same `id` (the table's primary key, across all rooms) and appends
the new row. -/
def saveElement (s : DBState) (roomId : String) (e : DrawingElement) : DBState :=
  { s with elements :=
      (s.elements.filter (fun row => row.id != e.id)) ++ [elementRowOf roomId e] }

/-- Comparison used to model `ORDER BY timestamp` on `whiteboard_elements`. -/
def rowLE (a b : ElementRow) : Prop := a.timestamp ≤ b.timestamp

instance : DecidableRel rowLE := fun a b => Nat.decLe a.timestamp b.timestamp

instance : IsTotal ElementRow rowLE := ⟨fun a b => Nat.le_total a.timestamp b.timestamp⟩

instance : IsTrans ElementRow rowLE := ⟨fun _ _ _ h1 h2 => Nat.le_trans h1 h2⟩

/-- `DatabaseManager.getRoomElements`: `SELECT elementData FROM
whiteboard_elements WHERE roomId = ? ORDER BY timestamp`, deserializing each
row. -/
def getRoomElements (s : DBState) (roomId : String) : List DrawingElement :=
  (List.insertionSort rowLE (s.elements.filter (fun row => row.roomId == roomId))).map
    (fun row => row.elementData)

/-- `DatabaseManager.clearRoomElements`: `DELETE FROM whiteboard_elements
WHERE roomId = ?`. -/
def clearRoomElements (s : DBState) (roomId : String) : DBState :=
  { s with elements := s.elements.filter (fun row => row.roomId != roomId) }

/-- `DatabaseManager.addUserToRoom`: `INSERT OR REPLACE INTO room_users
(roomId, userId, joinedAt) VALUES (?, ?, Date.now())`. -/
def addUserToRoom (s : DBState) (roomId userId : String) (now : Nat) : DBState :=
  { s with roomUsers :=
      (s.roomUsers.filter (fun ru => !(ru.roomId == roomId && ru.userId == userId)))
        ++ [⟨roomId, userId, now⟩] }

/-- `DatabaseManager.removeUserFromRoom`: `DELETE FROM room_users WHERE
roomId = ? AND userId = ?`. -/
def removeUserFromRoom (s : DBState) (roomId userId : String) : DBState :=
  { s with roomUsers :=
      s.roomUsers.filter (fun ru => !(ru.roomId == roomId && ru.userId == userId)) }

/-- `DatabaseManager.getRoomUsers`: `SELECT u.* FROM users u JOIN room_users
ru ON u.id = ru.userId WHERE ru.roomId = ?`; `users.id` is a primary key, so
each membership row joins with at most one user row. -/
def getRoomUsers (s : DBState) (roomId : String) : List User :=
  (s.roomUsers.filter (fun ru => ru.roomId == roomId)).filterMap
    (fun ru => (s.users.find? (fun u => u.id == ru.userId)).map
      (fun u => ⟨u.id, u.name, u.color, u.socketId⟩))

/-- `DatabaseManager.getRoom`: `SELECT * FROM rooms WHERE id = ?` plus the
member join, returning `null` when the room row is absent. -/
def getRoom (s : DBState) (roomId : String) : Option Room :=
  (s.rooms.find? (fun r => r.id == roomId)).map
    (fun r => ⟨r.id, r.name, r.isPrivate, r.password, r.permissions, r.createdAt,
      getRoomUsers s roomId⟩)

/-- `DatabaseManager.createUser`: inserts a fresh user row; the generated id
and palette color are passed in explicitly rather than drawn from
`Date.now()`/`Math.random()`. -/
def createUser (s : DBState) (socketId name freshUserId color : String) (now : Nat) :
    DBState × User :=
  ({ s with users := s.users ++ [⟨freshUserId, name, color, socketId, now⟩] },
   ⟨freshUserId, name, color, socketId⟩)

/-- Payload of `POST /api/rooms` after the route handler's
`password: isPrivate ? password : undefined` normalization. -/
structure CreateRoomData where
  name : String
  isPrivate : Bool
  password : Option String
  permissions : String
deriving DecidableEq

/-- `DatabaseManager.createRoom`: inserts a fresh room row (generated id and
clock passed in explicitly) and returns the descriptor with an empty member
list. -/
def createRoom (s : DBState) (data : CreateRoomData) (freshRoomId : String) (now : Nat) :
    DBState × Room :=
  ({ s with rooms := s.rooms ++
      [⟨freshRoomId, data.name, data.isPrivate, data.password, data.permissions, now⟩] },
   ⟨freshRoomId, data.name, data.isPrivate, data.password, data.permissions, now, []⟩)

/-- Modelled from the spec: `WhiteboardManager.addElement` is not among the
provided sources; spec section 4.4 specifies `append/update(element)` as a
durable upsert keyed by element id, which is exactly the store's
`saveElement`. -/
def addElement (s : DBState) (roomId : String) (e : DrawingElement) : DBState :=
  saveElement s roomId e

/-- Modelled from the spec: `WhiteboardManager.updateElement` is not among the
provided sources; spec section 4.4 folds append and update into the same
upsert keyed by element id, i.e. the store's `saveElement`. -/
def updateElement (s : DBState) (roomId : String) (e : DrawingElement) : DBState :=
  saveElement s roomId e

/-- Modelled from the spec: `WhiteboardManager.clearRoom` is not among the
provided sources; spec section 4.4's `clear(roomId)` deletes every element of
the room, i.e. the store's `clearRoomElements`. -/
def clearRoom (s : DBState) (roomId : String) : DBState :=
  clearRoomElements s roomId

/-- Modelled from the spec: `AuthManager.createOrGetUser` is not among the
provided sources.  Spec section 3: "A User is created on first successful
join ... rejoining later creates a new identity unless a session-resume
mechanism is added (none exists here)" — every successful join creates a
fresh user through the store's `createUser`. -/
def createOrGetUser (s : DBState) (socketId userName freshUserId freshColor : String)
    (now : Nat) : DBState × User :=
  createUser s socketId userName freshUserId freshColor now

/-- The TS join handler checks `room.isPrivate && room.password !== password`.
The stored password is `null` (here `none`) when the column is SQL NULL and
the supplied one is `undefined` (here `none`) when the client omitted it;
`null !== undefined` holds in JS, so two absent values compare as strictly
unequal. -/
def passwordStrictNeq (stored supplied : Option String) : Bool :=
  match stored, supplied with
  | some a, some b => a != b
  | _, _ => true

/-- JS truthiness of an optional string: `undefined` and the empty string are
falsy, every other string is truthy. -/
def truthy : Option String → Bool
  | some s => s != ""
  | none => false

/-- One live socket connection: its id, its `socket.data` fields
(`roomId`/`userId`, set by the join handler), and the socket.io rooms it has
joined via `socket.join`. -/
structure Connection where
  sid : String
  dataRoomId : Option String
  dataUserId : Option String
  socketRooms : List String
deriving DecidableEq

/-- The whole server: the live connections and the database. -/
structure ServerState where
  conns : List Connection
  db : DBState
deriving DecidableEq

/-- Look up a live connection by socket id. -/
def getConn (srv : ServerState) (sid : String) : Option Connection :=
  srv.conns.find? (fun c => c.sid == sid)

/-- Apply a function to the connection with the given id, if present. -/
def updateConn (conns : List Connection) (sid : String) (f : Connection → Connection) :
    List Connection :=
  conns.map (fun c => if c.sid == sid then f c else c)

/-- `socket.join(roomId)`: adds the socket to the socket.io room (a set). -/
def socketJoin (conns : List Connection) (sid roomId : String) : List Connection :=
  updateConn conns sid (fun c =>
    if c.socketRooms.contains roomId then c
    else { c with socketRooms := c.socketRooms ++ [roomId] })

/-- `socket.leave(roomId)`: removes the socket from the socket.io room. -/
def socketLeave (conns : List Connection) (sid roomId : String) : List Connection :=
  updateConn conns sid (fun c =>
    { c with socketRooms := c.socketRooms.filter (fun r => r != roomId) })

/-- Target of an emitted event: `socket.to(roomId).emit(...)` reaches every
socket in the room except the sender, `io.to(roomId).emit(...)` reaches every
socket in the room, the sender included. -/
inductive Recipients where
  | roomExceptSender (roomId sid : String)
  | roomAll (roomId : String)
deriving DecidableEq

/-- A server-initiated event together with its delivery target. -/
structure Broadcast where
  event : String
  recipients : Recipients
deriving DecidableEq

/-- The socket ids a broadcast is delivered to, given the current connection
list. -/
def recipientSids (conns : List Connection) : Recipients → List String
  | .roomExceptSender roomId sid =>
      (conns.filter (fun c => c.socketRooms.contains roomId && c.sid != sid)).map
        (fun c => c.sid)
  | .roomAll roomId =>
      (conns.filter (fun c => c.socketRooms.contains roomId)).map (fun c => c.sid)

/-- One observable step performed by a mutation handler, in program order:
either an awaited durable-store write or a broadcast emission. -/
inductive ServerAction where
  | dbWrite (tag : String)
  | emitBroadcast (b : Broadcast)
deriving DecidableEq

/-- Extract the broadcasts of an action trace, in emission order. -/
def broadcastsOf (as : List ServerAction) : List Broadcast :=
  as.filterMap (fun a => match a with
    | .emitBroadcast b => some b
    | .dbWrite _ => none)

/-- Payload of the `join-room` client event. -/
structure JoinData where
  roomId : String
  password : Option String
  userName : String
deriving DecidableEq

/-- The acknowledgment callback of `join-room`: either a typed error string
or the room descriptor, the user identity, and the ordered element
snapshot. -/
inductive JoinReply where
  | failure (error : String)
  | success (room : Room) (user : User) (elements : List DrawingElement)
deriving DecidableEq

/-- Whether a join acknowledgment reports success. -/
def JoinReply.isSuccess : JoinReply → Bool
  | .success _ _ _ => true
  | .failure _ => false

/-- The `join-room` handler.  Faithful to the source order: room lookup,
password check, `createOrGetUser`, `socket.join`, `addUserToRoom`, setting
`socket.data`, snapshot read, acknowledgment callback, then the
`user-joined` emit via `socket.to` and the `room-users-updated` emit via
`io.to`.  The fresh user id/color and the clock are explicit parameters.
The two manager calls (`roomManager.getRoom`, `roomManager.addUserToRoom`,
`whiteboardManager.getRoomElements`) are modelled from the spec as direct
delegations to the store. -/
def handleJoinRoom (srv : ServerState) (sid : String) (data : JoinData)
    (freshUserId freshColor : String) (now : Nat) :
    ServerState × JoinReply × List Broadcast :=
  match getRoom srv.db data.roomId with
  | none => (srv, .failure "Room not found", [])
  | some room =>
    if room.isPrivate && passwordStrictNeq room.password data.password then
      (srv, .failure "Invalid password", [])
    else
      let du := createOrGetUser srv.db sid data.userName freshUserId freshColor now
      let conns1 := socketJoin srv.conns sid data.roomId
      let db2 := addUserToRoom du.1 data.roomId du.2.id now
      let conns2 := updateConn conns1 sid (fun c =>
        { c with dataRoomId := some data.roomId, dataUserId := some du.2.id })
      let elements := getRoomElements db2 data.roomId
      (⟨conns2, db2⟩, .success room du.2 elements,
       [⟨"user-joined", .roomExceptSender data.roomId sid⟩,
        ⟨"room-users-updated", .roomAll data.roomId⟩])

/-- The `handleUserLeave` helper: remove the membership row, leave the
socket.io room, then emit `user-left` and `room-users-updated`, both via
`socket.to` (the leaver's `socket.data` is not cleared by the source). -/
def handleUserLeave (srv : ServerState) (sid roomId userId : String) :
    ServerState × List Broadcast :=
  (⟨socketLeave srv.conns sid roomId, removeUserFromRoom srv.db roomId userId⟩,
   [⟨"user-left", .roomExceptSender roomId sid⟩,
    ⟨"room-users-updated", .roomExceptSender roomId sid⟩])

/-- The `leave-room` handler: reads `socket.data` and, when `roomId` and
`userId` are both truthy, runs `handleUserLeave`. -/
def handleLeaveRoom (srv : ServerState) (sid : String) : ServerState × List Broadcast :=
  match getConn srv sid with
  | some c =>
    if truthy c.dataRoomId && truthy c.dataUserId then
      handleUserLeave srv sid (c.dataRoomId.getD "") (c.dataUserId.getD "")
    else (srv, [])
  | none => (srv, [])

/-- The `drawing-start` handler: guard on truthy `socket.data`, awaited
`addElement` write, then `socket.to(roomId).emit('drawing-start', ...)`. -/
def handleDrawingStart (srv : ServerState) (sid : String) (e : DrawingElement) :
    ServerState × List ServerAction :=
  match getConn srv sid with
  | some c =>
    if truthy c.dataRoomId && truthy c.dataUserId then
      let roomId := c.dataRoomId.getD ""
      ({ srv with db := addElement srv.db roomId e },
       [.dbWrite "saveElement",
        .emitBroadcast ⟨"drawing-start", .roomExceptSender roomId sid⟩])
    else (srv, [])
  | none => (srv, [])

/-- The `drawing-update` handler: same guard, awaited `updateElement` write,
then the `drawing-update` broadcast. -/
def handleDrawingUpdate (srv : ServerState) (sid : String) (e : DrawingElement) :
    ServerState × List ServerAction :=
  match getConn srv sid with
  | some c =>
    if truthy c.dataRoomId && truthy c.dataUserId then
      let roomId := c.dataRoomId.getD ""
      ({ srv with db := updateElement srv.db roomId e },
       [.dbWrite "saveElement",
        .emitBroadcast ⟨"drawing-update", .roomExceptSender roomId sid⟩])
    else (srv, [])
  | none => (srv, [])

/-- The `drawing-end` handler: same guard, awaited final `updateElement`
write, then the `drawing-end` broadcast. -/
def handleDrawingEnd (srv : ServerState) (sid : String) (e : DrawingElement) :
    ServerState × List ServerAction :=
  match getConn srv sid with
  | some c =>
    if truthy c.dataRoomId && truthy c.dataUserId then
      let roomId := c.dataRoomId.getD ""
      ({ srv with db := updateElement srv.db roomId e },
       [.dbWrite "saveElement",
        .emitBroadcast ⟨"drawing-end", .roomExceptSender roomId sid⟩])
    else (srv, [])
  | none => (srv, [])

/-- The `text-added` handler: same guard, awaited `addElement` write, then
the `text-added` broadcast. -/
def handleTextAdded (srv : ServerState) (sid : String) (e : DrawingElement) :
    ServerState × List ServerAction :=
  match getConn srv sid with
  | some c =>
    if truthy c.dataRoomId && truthy c.dataUserId then
      let roomId := c.dataRoomId.getD ""
      ({ srv with db := addElement srv.db roomId e },
       [.dbWrite "saveElement",
        .emitBroadcast ⟨"text-added", .roomExceptSender roomId sid⟩])
    else (srv, [])
  | none => (srv, [])

/-- The `clear-canvas` handler: the source guards on `roomId` only, performs
the awaited `clearRoom` write, then emits `canvas-cleared` via
`socket.to`. -/
def handleClearCanvas (srv : ServerState) (sid : String) : ServerState × List ServerAction :=
  match getConn srv sid with
  | some c =>
    if truthy c.dataRoomId then
      let roomId := c.dataRoomId.getD ""
      ({ srv with db := clearRoom srv.db roomId },
       [.dbWrite "clearRoomElements",
        .emitBroadcast ⟨"canvas-cleared", .roomExceptSender roomId sid⟩])
    else (srv, [])
  | none => (srv, [])

/-- The `cursor-move` handler: guard on truthy `socket.data`, no durable
write, one `cursor-moved` broadcast via `socket.to`. -/
def handleCursorMove (srv : ServerState) (sid : String) : ServerState × List ServerAction :=
  match getConn srv sid with
  | some c =>
    if truthy c.dataRoomId && truthy c.dataUserId then
      let roomId := c.dataRoomId.getD ""
      (srv, [.emitBroadcast ⟨"cursor-moved", .roomExceptSender roomId sid⟩])
    else (srv, [])
  | none => (srv, [])

/-- One durable element-store operation, as issued by the element handlers:
an upsert of one element into a room, or a room-wide clear. -/
inductive StoreOp where
  | save (roomId : String) (e : DrawingElement)
  | clearAll (roomId : String)
deriving DecidableEq

/-- Apply one store operation to the database. -/
def applyStoreOp (s : DBState) : StoreOp → DBState
  | .save r e => saveElement s r e
  | .clearAll r => clearRoomElements s r

/-- Apply a sequence of store operations, oldest first. -/
def applyStoreOps (s : DBState) (ops : List StoreOp) : DBState :=
  ops.foldl applyStoreOp s

/-- Specification-side replay for one element id: walking the operation
sequence oldest first, a save with that id installs its row and a clear of
the row's room discards it.  The result is the surviving latest committed
version for the id, if any. -/
def lastRowAux (acc : Option ElementRow) (id : String) : List StoreOp → Option ElementRow
  | [] => acc
  | .save r e :: rest =>
      lastRowAux (if e.id == id then some (elementRowOf r e) else acc) id rest
  | .clearAll r :: rest =>
      lastRowAux (acc.filter (fun row => row.roomId != r)) id rest

/-- The latest committed surviving version for an id over a whole operation
sequence starting from an empty table. -/
def lastRow (ops : List StoreOp) (id : String) : Option ElementRow :=
  lastRowAux none id ops

/-- Primary-key lookup in the elements table: the first row with the id. -/
def rowFor (table : List ElementRow) (id : String) : Option ElementRow :=
  table.find? (fun row => row.id == id)

/-- A read of one element id through the snapshot query, as a client that
inspects the join snapshot would perform it. -/
def readElement (s : DBState) (roomId id : String) : Option DrawingElement :=
  (getRoomElements s roomId).find? (fun e => e.id == id)

/-- The first committed (creation) version for an id in an operation
sequence: the element carried by the earliest save bearing that id. -/
def firstCommit (ops : List StoreOp) (id : String) : Option DrawingElement :=
  (ops.filterMap (fun op => match op with
    | .save _ e => if e.id == id then some e else none
    | .clearAll _ => none)).head?

/-- The membership relation derived from the `room_users` table. -/
def memberPairs (s : DBState) : List (String × String) :=
  s.roomUsers.map (fun ru => (ru.roomId, ru.userId))

/-- Well-formed element rows: the `id` and `timestamp` columns agree with the
serialized element, as every row written by `saveElement` does. -/
def WFRows (s : DBState) : Prop :=
  ∀ row ∈ s.elements, row.id = row.elementData.id ∧ row.timestamp = row.elementData.timestamp

/-- The primary-key invariant of `whiteboard_elements`: ids are pairwise
distinct. -/
def NodupIds (s : DBState) : Prop := (s.elements.map ElementRow.id).Nodup

/-- Filtering by a predicate implied by the search predicate does not change
the result of `find?`. -/
theorem find?_filter_of_imp {α : Type} {p q : α → Bool} (l : List α)
    (h : ∀ a, q a = true → p a = true) :
    (l.filter p).find? q = l.find? q := by
  induction l with
  | nil => rfl
  | cons x t ih =>
    by_cases hq : q x = true
    · rw [List.filter_cons, if_pos (h x hq), List.find?_cons_of_pos _ hq,
        List.find?_cons_of_pos _ hq]
    · by_cases hp : p x = true
      · rw [List.filter_cons, if_pos hp, List.find?_cons_of_neg _ hq,
          List.find?_cons_of_neg _ hq, ih]
      · rw [List.filter_cons, if_neg hp, List.find?_cons_of_neg _ hq, ih]

/-- When a list contains exactly one element satisfying the predicate,
`find?` returns it. -/
theorem find?_of_mem_unique {α : Type} {p : α → Bool} {l : List α} {a : α}
    (ha : a ∈ l) (hpa : p a = true) (huniq : ∀ b ∈ l, p b = true → b = a) :
    l.find? p = some a := by
  induction l with
  | nil => cases ha
  | cons x t ih =>
    by_cases hx : p x = true
    · have hxa : x = a := huniq x (List.mem_cons_self x t) hx
      rw [List.find?_cons_of_pos _ hx, hxa]
    · rw [List.find?_cons_of_neg _ hx]
      have ha' : a ∈ t := by
        rcases List.mem_cons.mp ha with h | h
        · exact absurd (h ▸ hpa) hx
        · exact h
      exact ih ha' (fun b hb hpb => huniq b (List.mem_cons_of_mem _ hb) hpb)

/-- Membership in the snapshot query: an element appears in
`getRoomElements s r` exactly when some stored row of room `r` carries it. -/
theorem mem_getRoomElements {s : DBState} {r : String} {e : DrawingElement} :
    e ∈ getRoomElements s r ↔
      ∃ row ∈ s.elements, row.roomId = r ∧ row.elementData = e := by
  unfold getRoomElements
  rw [List.mem_map]
  constructor
  · rintro ⟨row, hrow, rfl⟩
    have hmemf : row ∈ s.elements.filter (fun row => row.roomId == r) :=
      (List.perm_insertionSort rowLE _).mem_iff.mp hrow
    rcases List.mem_filter.mp hmemf with ⟨hmem, hr⟩
    exact ⟨row, hmem, by simpa using hr, rfl⟩
  · rintro ⟨row, hmem, hr, rfl⟩
    refine ⟨row, ?_, rfl⟩
    exact (List.perm_insertionSort rowLE _).mem_iff.mpr
      (List.mem_filter.mpr ⟨hmem, by simpa using hr⟩)

/-- Characterization of delivery for a `socket.to(roomId)` broadcast: the
recipients are exactly the connections currently in the socket.io room other
than the sender. -/
theorem mem_recipientSids_exceptSender {conns : List Connection} {r sid s' : String} :
    s' ∈ recipientSids conns (.roomExceptSender r sid) ↔
      s' ≠ sid ∧ ∃ c ∈ conns, c.sid = s' ∧ r ∈ c.socketRooms := by
  unfold recipientSids
  rw [List.mem_map]
  constructor
  · rintro ⟨c, hc, rfl⟩
    rcases List.mem_filter.mp hc with ⟨hmem, hcond⟩
    rcases Bool.and_eq_true_iff.mp hcond with ⟨h1, h2⟩
    refine ⟨by simpa using h2, c, hmem, rfl, by simpa using h1⟩
  · rintro ⟨hne, c, hmem, rfl, hroom⟩
    refine ⟨c, List.mem_filter.mpr ⟨hmem, ?_⟩, rfl⟩
    exact Bool.and_eq_true_iff.mpr ⟨by simpa using hroom, by simpa using hne⟩

/-- A `socket.to(roomId)` broadcast is never delivered to the sender, for any
connection list. -/
theorem sender_not_mem_recipientSids (conns : List Connection) (r sid : String) :
    sid ∉ recipientSids conns (.roomExceptSender r sid) := by
  intro h
  exact (mem_recipientSids_exceptSender.mp h).1 rfl

/-- The rows written by `saveElement` keep `id` and `timestamp` in sync with
the serialized element. -/
theorem WFRows_saveElement {s : DBState} (h : WFRows s) (r : String) (e : DrawingElement) :
    WFRows (saveElement s r e) := by
  intro row hrow
  rcases List.mem_append.mp hrow with h1 | h1
  · exact h row (List.mem_of_mem_filter h1)
  · rw [List.mem_singleton.mp h1]
    exact ⟨rfl, rfl⟩

/-- Deleting rows preserves row well-formedness. -/
theorem WFRows_clearRoomElements {s : DBState} (h : WFRows s) (r : String) :
    WFRows (clearRoomElements s r) :=
  fun row hrow => h row (List.mem_of_mem_filter hrow)

/-- The replace step of `saveElement` keeps the id column duplicate-free. -/
theorem NodupIds_saveElement {s : DBState} (h : NodupIds s) (r : String) (e : DrawingElement) :
    NodupIds (saveElement s r e) := by
  unfold NodupIds saveElement at *
  simp only [List.map_append, List.map_cons, List.map_nil]
  rw [List.nodup_append]
  refine ⟨((List.filter_sublist _).map ElementRow.id).nodup h, List.nodup_singleton _, ?_⟩
  intro x hx hx'
  rcases List.mem_map.mp hx with ⟨row, hrow, rfl⟩
  rcases List.mem_filter.mp hrow with ⟨_, hne⟩
  have hid : row.id = e.id := List.mem_singleton.mp hx'
  rw [hid] at hne
  simp at hne

/-- Deleting rows keeps the id column duplicate-free. -/
theorem NodupIds_clearRoomElements {s : DBState} (h : NodupIds s) (r : String) :
    NodupIds (clearRoomElements s r) :=
  ((List.filter_sublist _).map ElementRow.id).nodup h

/-- Row well-formedness is an invariant of the element-store operations. -/
theorem WFRows_applyStoreOps {s : DBState} (h : WFRows s) (ops : List StoreOp) :
    WFRows (applyStoreOps s ops) := by
  induction ops generalizing s with
  | nil => exact h
  | cons op rest ih =>
    cases op with
    | save r e => exact ih (WFRows_saveElement h r e)
    | clearAll r => exact ih (WFRows_clearRoomElements h r)

/-- The primary-key invariant is an invariant of the element-store
operations. -/
theorem NodupIds_applyStoreOps {s : DBState} (h : NodupIds s) (ops : List StoreOp) :
    NodupIds (applyStoreOps s ops) := by
  induction ops generalizing s with
  | nil => exact h
  | cons op rest ih =>
    cases op with
    | save r e => exact ih (NodupIds_saveElement h r e)
    | clearAll r => exact ih (NodupIds_clearRoomElements h r)

/-- Effect of `saveElement` on a primary-key lookup: the saved id now maps to
the fresh row, every other id is untouched. -/
theorem rowFor_saveElement (s : DBState) (r : String) (e : DrawingElement) (id : String) :
    rowFor (saveElement s r e).elements id =
      if e.id == id then some (elementRowOf r e) else rowFor s.elements id := by
  unfold rowFor saveElement
  simp only
  rw [List.find?_append]
  by_cases hid : e.id = id
  · have hnone :
        (s.elements.filter (fun row => row.id != e.id)).find? (fun row => row.id == id)
          = none := by
      rw [List.find?_eq_none]
      intro x hx hpx
      rcases List.mem_filter.mp hx with ⟨_, hne⟩
      rw [eq_of_beq hpx, ← hid] at hne
      simp at hne
    rw [hnone]
    simp [List.find?_cons, List.find?_nil, elementRowOf, hid]
  · have heq :
        (s.elements.filter (fun row => row.id != e.id)).find? (fun row => row.id == id)
          = s.elements.find? (fun row => row.id == id) := by
      refine find?_filter_of_imp _ ?_
      intro a ha
      have : a.id = id := eq_of_beq ha
      simp [this, Ne.symm hid]
    rw [heq]
    simp [List.find?_cons, List.find?_nil, elementRowOf, hid, Option.or_none]

/-- Effect of `clearRoomElements` on a primary-key lookup, under the
primary-key invariant: the id survives exactly when its row lives in another
room. -/
theorem rowFor_clearRoomElements {s : DBState} (hnd : NodupIds s) (r id : String) :
    rowFor (clearRoomElements s r).elements id =
      (rowFor s.elements id).filter (fun row => row.roomId != r) := by
  unfold rowFor clearRoomElements
  simp only
  cases h : s.elements.find? (fun row => row.id == id) with
  | none =>
    rw [List.find?_eq_none] at h
    rw [List.find?_eq_none.mpr (fun x hx => h x (List.mem_of_mem_filter hx))]
    rfl
  | some row =>
    have hrowmem : row ∈ s.elements := List.mem_of_find?_eq_some h
    have hprow := List.find?_some h
    have hinj : ∀ b ∈ s.elements, (b.id == id) = true → b = row := by
      intro b hb hpb
      exact List.inj_on_of_nodup_map hnd hb hrowmem ((eq_of_beq hpb).trans (eq_of_beq hprow).symm)
    by_cases hroom : row.roomId = r
    · have hnone : ∀ x ∈ s.elements.filter (fun row => row.roomId != r),
          ¬ ((x.id == id) = true) := by
        intro x hx hpx
        rcases List.mem_filter.mp hx with ⟨hxm, hxr⟩
        rw [hinj x hxm hpx, hroom] at hxr
        simp at hxr
      rw [List.find?_eq_none.mpr hnone]
      simp [Option.filter, hroom]
    · have hmemf : row ∈ s.elements.filter (fun row => row.roomId != r) :=
        List.mem_filter.mpr ⟨hrowmem, by simp [hroom]⟩
      rw [find?_of_mem_unique hmemf hprow
        (fun b hb hpb => hinj b (List.mem_of_mem_filter hb) hpb)]
      simp [Option.filter, hroom]

/-- The table's primary-key lookup after a run of store operations is
computed by the specification-side replay `lastRowAux`. -/
theorem rowFor_applyStoreOps {s : DBState} (hnd : NodupIds s) (ops : List StoreOp)
    (id : String) :
    rowFor (applyStoreOps s ops).elements id = lastRowAux (rowFor s.elements id) id ops := by
  induction ops generalizing s with
  | nil => rfl
  | cons op rest ih =>
    cases op with
    | save r e =>
      have hstep : applyStoreOps s (StoreOp.save r e :: rest)
          = applyStoreOps (saveElement s r e) rest := rfl
      rw [hstep, ih (NodupIds_saveElement hnd r e), rowFor_saveElement]
      rfl
    | clearAll r =>
      have hstep : applyStoreOps s (StoreOp.clearAll r :: rest)
          = applyStoreOps (clearRoomElements s r) rest := rfl
      rw [hstep, ih (NodupIds_clearRoomElements hnd r), rowFor_clearRoomElements hnd]
      rfl

/-- Under the row invariants, the ids in a snapshot are pairwise distinct. -/
theorem snapshot_ids_nodup {s : DBState} (hwf : WFRows s) (hnd : NodupIds s) (r : String) :
    ((getRoomElements s r).map DrawingElement.id).Nodup := by
  unfold getRoomElements
  rw [List.map_map]
  have hperm := (List.perm_insertionSort rowLE
    (s.elements.filter (fun row => row.roomId == r))).map
      (DrawingElement.id ∘ fun row => row.elementData)
  rw [hperm.nodup_iff]
  have hcongr : (s.elements.filter (fun row => row.roomId == r)).map
        (DrawingElement.id ∘ fun row => row.elementData)
      = (s.elements.filter (fun row => row.roomId == r)).map ElementRow.id := by
    refine List.map_congr_left ?_
    intro row hrow
    exact ((hwf row (List.mem_of_mem_filter hrow)).1).symm
  rw [hcongr]
  exact ((List.filter_sublist _).map ElementRow.id).nodup hnd

/-- Under the row invariants, a snapshot is sorted by the elements' stored
timestamps. -/
theorem snapshot_sorted {s : DBState} (hwf : WFRows s) (r : String) :
    List.Pairwise (fun a b : DrawingElement => a.timestamp ≤ b.timestamp)
      (getRoomElements s r) := by
  unfold getRoomElements
  rw [List.pairwise_map]
  have hs := List.sorted_insertionSort rowLE (s.elements.filter (fun row => row.roomId == r))
  refine hs.imp_of_mem ?_
  intro a b ha hb hab
  have hma := List.mem_of_mem_filter
    ((List.perm_insertionSort rowLE _).mem_iff.mp ha)
  have hmb := List.mem_of_mem_filter
    ((List.perm_insertionSort rowLE _).mem_iff.mp hb)
  have h2a := (hwf a hma).2
  have h2b := (hwf b hmb).2
  rw [← h2a, ← h2b]
  exact hab

/-- Every row present after a run of store operations either predates the
run or was written by one of its save operations. -/
theorem mem_elements_applyStoreOps {s : DBState} {ops : List StoreOp} {row : ElementRow}
    (h : row ∈ (applyStoreOps s ops).elements) :
    row ∈ s.elements ∨ ∃ r e, StoreOp.save r e ∈ ops ∧ row = elementRowOf r e := by
  induction ops generalizing s with
  | nil => exact Or.inl h
  | cons op rest ih =>
    cases op with
    | save r e =>
      rcases ih (s := saveElement s r e) h with h1 | ⟨r', e', hmem, heq⟩
      · rcases List.mem_append.mp h1 with h2 | h2
        · exact Or.inl (List.mem_of_mem_filter h2)
        · exact Or.inr ⟨r, e, List.mem_cons_self _ _, List.mem_singleton.mp h2⟩
      · exact Or.inr ⟨r', e', List.mem_cons_of_mem _ hmem, heq⟩
    | clearAll r =>
      rcases ih (s := clearRoomElements s r) h with h1 | ⟨r', e', hmem, heq⟩
      · exact Or.inl (List.mem_of_mem_filter h1)
      · exact Or.inr ⟨r', e', List.mem_cons_of_mem _ hmem, heq⟩

/-- The strict password comparison accepts exactly when both sides carry the
same present string (two absent values are distinct JS values, `null` on the
stored side and `undefined` on the supplied side). -/
theorem passwordStrictNeq_eq_false_iff (stored supplied : Option String) :
    passwordStrictNeq stored supplied = false ↔
      ∃ pw, stored = some pw ∧ supplied = some pw := by
  cases stored with
  | none => simp [passwordStrictNeq]
  | some a =>
    cases supplied with
    | none => simp [passwordStrictNeq]
    | some b =>
      simp only [passwordStrictNeq, bne_eq_false_iff_eq, Option.some.injEq]
      constructor
      · rintro rfl
        exact ⟨a, rfl, rfl⟩
      · rintro ⟨pw, rfl, rfl⟩
        rfl

/-- C4: a `join-room` request naming a roomId with no room row returns the
`Room not found` error through the acknowledgment callback of the requesting
connection only and is otherwise a complete no-op: the server state (users,
memberships, sessions, socket rooms, elements) is returned unchanged and the
emitted broadcast list is empty. -/
theorem C4_unknown_room_join_no_side_effects (srv : ServerState) (sid : String)
    (data : JoinData) (freshUserId freshColor : String) (now : Nat)
    (h : getRoom srv.db data.roomId = none) :
    handleJoinRoom srv sid data freshUserId freshColor now
      = (srv, .failure "Room not found", []) := by
  unfold handleJoinRoom
  rw [h]

/-- Witness for C4: a concrete server whose database holds no room at all. -/
theorem C4_unknown_room_join_no_side_effects_witness :
    handleJoinRoom ⟨[⟨"s1", none, none, []⟩], emptyDB⟩ "s1" ⟨"nope", none, "al"⟩ "u1" "c" 0
      = (⟨[⟨"s1", none, none, []⟩], emptyDB⟩, .failure "Room not found", []) :=
  C4_unknown_room_join_no_side_effects ⟨[⟨"s1", none, none, []⟩], emptyDB⟩ "s1"
    ⟨"nope", none, "al"⟩ "u1" "c" 0 (by decide)

/-- C5 counterexample: a private room whose stored password column is SQL
NULL (constructible through `POST /api/rooms` with `isPrivate` and no
password).  A join supplying no password offers a value equal to the stored
one — both are absent — yet the code rejects it with `Invalid password`,
because the strict comparison `room.password !== password` compares the
stored `null` with the supplied `undefined`.  So "succeeds iff the supplied
password equals the stored password" fails at this input. -/
theorem C5_counterexample :
    (getRoom (⟨[⟨"p", "Priv", true, none, "edit", 0⟩], [], [], []⟩ : DBState) "p").map
        Room.password = some none
    ∧ (handleJoinRoom ⟨[⟨"s1", none, none, []⟩], ⟨[⟨"p", "Priv", true, none, "edit", 0⟩], [], [], []⟩⟩
        "s1" ⟨"p", none, "bob"⟩ "u1" "c" 0).2.1 = .failure "Invalid password" := by
  constructor
  · decide
  · decide

/-- C5 (amended): for an existing room, a join succeeds iff the room is
public, or the room is private and the supplied password is present and
equal to a present stored password.  In particular a public room admits any
supplied password, and a private room whose stored password is NULL rejects
every join — including one with an absent supplied password, since the
strict JS comparison distinguishes the stored `null` from the supplied
`undefined`. -/
theorem C5_amended_password_gate (srv : ServerState) (sid : String) (data : JoinData)
    (freshUserId freshColor : String) (now : Nat) (room : Room)
    (hroom : getRoom srv.db data.roomId = some room) :
    (handleJoinRoom srv sid data freshUserId freshColor now).2.1.isSuccess = true
      ↔ (room.isPrivate = false ∨
          ∃ pw, room.password = some pw ∧ data.password = some pw) := by
  unfold handleJoinRoom
  rw [hroom]
  dsimp only
  rcases Bool.eq_false_or_eq_true
      (room.isPrivate && passwordStrictNeq room.password data.password) with hcond | hcond
  · rcases Bool.and_eq_true_iff.mp hcond with ⟨hpriv, hneq⟩
    rw [if_pos hcond]
    simp only [JoinReply.isSuccess, Bool.false_eq_true, false_iff]
    rintro (hpub | hmatch)
    · rw [hpub] at hpriv
      cases hpriv
    · rw [(passwordStrictNeq_eq_false_iff room.password data.password).mpr hmatch] at hneq
      cases hneq
  · rw [if_neg (by rw [hcond]; exact Bool.false_ne_true)]
    simp only [JoinReply.isSuccess, true_iff]
    rcases Bool.and_eq_false_iff.mp hcond with h | h
    · exact Or.inl h
    · exact Or.inr ((passwordStrictNeq_eq_false_iff room.password data.password).mp h)

/-- Witness for C5 (amended) at a public room: any supplied password is
accepted. -/
theorem C5_amended_password_gate_witness :
    (handleJoinRoom ⟨[⟨"s1", none, none, []⟩], ⟨[⟨"g", "Pub", false, none, "edit", 0⟩], [], [], []⟩⟩
      "s1" ⟨"g", some "whatever", "al"⟩ "u1" "c" 0).2.1.isSuccess = true :=
  (C5_amended_password_gate
    ⟨[⟨"s1", none, none, []⟩], ⟨[⟨"g", "Pub", false, none, "edit", 0⟩], [], [], []⟩⟩
    "s1" ⟨"g", some "whatever", "al"⟩ "u1" "c" 0
    ⟨"g", "Pub", false, none, "edit", 0, []⟩ (by decide)).mpr (Or.inl rfl)

/-- C7: when the invoking connection's session records no roomId and no
userId (the un-joined state), every mutation, text, clear and cursor event
handler is a silent no-op: the server state is returned unchanged, no
durable write happens, and no broadcast or error is emitted (the action
trace is empty, and these handlers have no acknowledgment channel at
all). -/
theorem C7_unjoined_events_dropped (srv : ServerState) (sid : String)
    (e : DrawingElement) (c : Connection) (hc : getConn srv sid = some c)
    (hr : c.dataRoomId = none) (hu : c.dataUserId = none) :
    handleDrawingStart srv sid e = (srv, [])
    ∧ handleDrawingUpdate srv sid e = (srv, [])
    ∧ handleDrawingEnd srv sid e = (srv, [])
    ∧ handleTextAdded srv sid e = (srv, [])
    ∧ handleClearCanvas srv sid = (srv, [])
    ∧ handleCursorMove srv sid = (srv, []) := by
  refine ⟨?_, ?_, ?_, ?_, ?_, ?_⟩ <;>
    simp [handleDrawingStart, handleDrawingUpdate, handleDrawingEnd, handleTextAdded,
      handleClearCanvas, handleCursorMove, hc, hr, hu, truthy]

/-- Witness for C7: a live connection that has never joined a room submits a
drawing event and a clear; both leave the server untouched. -/
theorem C7_unjoined_events_dropped_witness :
    handleDrawingStart ⟨[⟨"s9", none, none, []⟩], emptyDB⟩ "s9" ⟨"z", 1, "pl"⟩
        = (⟨[⟨"s9", none, none, []⟩], emptyDB⟩, [])
    ∧ handleClearCanvas ⟨[⟨"s9", none, none, []⟩], emptyDB⟩ "s9"
        = (⟨[⟨"s9", none, none, []⟩], emptyDB⟩, []) :=
  ⟨(C7_unjoined_events_dropped ⟨[⟨"s9", none, none, []⟩], emptyDB⟩ "s9" ⟨"z", 1, "pl"⟩
      ⟨"s9", none, none, []⟩ (by decide) rfl rfl).1,
   (C7_unjoined_events_dropped ⟨[⟨"s9", none, none, []⟩], emptyDB⟩ "s9" ⟨"z", 1, "pl"⟩
      ⟨"s9", none, none, []⟩ (by decide) rfl rfl).2.2.2.2.1⟩

/-- C8: membership add and remove are idempotent.  Re-adding an existing
member leaves the derived membership relation (the set of `(roomId, userId)`
pairs) unchanged — the `INSERT OR REPLACE` merely rewrites the row, also
refreshing its `joinedAt` column — and removing an absent member leaves the
whole database state literally unchanged; neither raises an error. -/
theorem C8_membership_idempotent (s : DBState) (r u : String) (t : Nat) :
    ((r, u) ∈ memberPairs s →
      ∀ p, p ∈ memberPairs (addUserToRoom s r u t) ↔ p ∈ memberPairs s)
    ∧ ((r, u) ∉ memberPairs s → removeUserFromRoom s r u = s) := by
  constructor
  · intro hmem p
    unfold memberPairs addUserToRoom at *
    simp only [List.map_append, List.map_cons, List.map_nil, List.mem_append,
      List.mem_singleton, List.mem_map, List.mem_filter] at *
    constructor
    · rintro (⟨ru, ⟨hru, _⟩, rfl⟩ | rfl)
      · exact ⟨ru, hru, rfl⟩
      · exact hmem
    · rintro ⟨ru, hru, rfl⟩
      by_cases hmatch : ru.roomId = r ∧ ru.userId = u
      · exact Or.inr (by rw [hmatch.1, hmatch.2])
      · refine Or.inl ⟨ru, ⟨hru, ?_⟩, rfl⟩
        simp only [Bool.not_eq_true', Bool.and_eq_false_iff, beq_eq_false_iff_ne, ne_eq]
        exact not_and_or.mp hmatch
  · intro hnot
    unfold removeUserFromRoom
    have hfix : s.roomUsers.filter (fun ru => !(ru.roomId == r && ru.userId == u))
        = s.roomUsers := by
      rw [List.filter_eq_self]
      intro ru hru
      by_contra hcontra
      have hcond : (ru.roomId == r && ru.userId == u) = true := by
        rcases Bool.eq_false_or_eq_true (ru.roomId == r && ru.userId == u) with h | h
        · exact h
        · exact absurd (by rw [h]; rfl) hcontra
      rcases Bool.and_eq_true_iff.mp hcond with ⟨h1, h2⟩
      exact hnot (by
        unfold memberPairs
        exact List.mem_map.mpr ⟨ru, hru, by rw [eq_of_beq h1, eq_of_beq h2]⟩)
    rw [hfix]

/-- Witness for C8 at concrete states: re-adding the present member
`("r","u")` preserves the membership relation, and removing the absent
member `("r","v")` is the identity. -/
theorem C8_membership_idempotent_witness :
    (("r", "u") ∈ memberPairs
        (addUserToRoom (⟨[], [], [⟨"r", "u", 0⟩], []⟩ : DBState) "r" "u" 7)
      ↔ ("r", "u") ∈ memberPairs (⟨[], [], [⟨"r", "u", 0⟩], []⟩ : DBState))
    ∧ removeUserFromRoom (⟨[], [], [⟨"r", "u", 0⟩], []⟩ : DBState) "r" "v"
        = (⟨[], [], [⟨"r", "u", 0⟩], []⟩ : DBState) :=
  ⟨(C8_membership_idempotent (⟨[], [], [⟨"r", "u", 0⟩], []⟩ : DBState) "r" "u" 7).1
      (by decide) ("r", "u"),
   (C8_membership_idempotent (⟨[], [], [⟨"r", "u", 0⟩], []⟩ : DBState) "r" "v" 7).2
      (by decide)⟩

/-- C10: a clear of room `r` only deletes rows of `r`'s element set.  Every
room descriptor, user record, and membership row is untouched, and the
element snapshot, member view and room view of any other room are identical
before and after; at the handler level, `clear-canvas` never changes the
connection list nor any table other than `whiteboard_elements`. -/
theorem C10_clear_frame (s : DBState) (r rOther : String) (h : rOther ≠ r)
    (srv : ServerState) (sid : String) :
    (clearRoomElements s r).rooms = s.rooms
    ∧ (clearRoomElements s r).users = s.users
    ∧ (clearRoomElements s r).roomUsers = s.roomUsers
    ∧ getRoomElements (clearRoomElements s r) rOther = getRoomElements s rOther
    ∧ getRoomUsers (clearRoomElements s r) rOther = getRoomUsers s rOther
    ∧ getRoom (clearRoomElements s r) rOther = getRoom s rOther
    ∧ (handleClearCanvas srv sid).1.conns = srv.conns
    ∧ (handleClearCanvas srv sid).1.db.rooms = srv.db.rooms
    ∧ (handleClearCanvas srv sid).1.db.users = srv.db.users
    ∧ (handleClearCanvas srv sid).1.db.roomUsers = srv.db.roomUsers := by
  have hfilter : (clearRoomElements s r).elements.filter (fun row => row.roomId == rOther)
      = s.elements.filter (fun row => row.roomId == rOther) := by
    unfold clearRoomElements
    simp only
    rw [List.filter_filter]
    refine List.filter_congr ?_
    intro row _
    by_cases hrow : row.roomId = rOther
    · have h1 : (row.roomId == rOther) = true := by simp [hrow]
      have h2 : (row.roomId != r) = true := by simp [hrow, h]
      rw [h1, h2]
      rfl
    · have h1 : (row.roomId == rOther) = false := by simp [hrow]
      rw [h1]
      rfl
  refine ⟨rfl, rfl, rfl, ?_, rfl, rfl, ?_, ?_, ?_, ?_⟩
  · unfold getRoomElements
    rw [hfilter]
  all_goals
    unfold handleClearCanvas
    cases hc : getConn srv sid with
    | none => rfl
    | some c =>
      by_cases hg : truthy c.dataRoomId = true
      · simp [hg, clearRoom, clearRoomElements]
      · simp [hg]

/-- Witness for C10 at a concrete database holding elements in two rooms and
a live joined connection issuing the clear. -/
theorem C10_clear_frame_witness :
    getRoomElements
        (clearRoomElements
          (⟨[], [], [], [⟨"a", "r1", ⟨"a", 1, "p"⟩, 1⟩, ⟨"b", "r2", ⟨"b", 2, "q"⟩, 2⟩]⟩ : DBState)
          "r1") "r2"
      = getRoomElements
          (⟨[], [], [], [⟨"a", "r1", ⟨"a", 1, "p"⟩, 1⟩, ⟨"b", "r2", ⟨"b", 2, "q"⟩, 2⟩]⟩ : DBState)
          "r2" :=
  (C10_clear_frame
    (⟨[], [], [], [⟨"a", "r1", ⟨"a", 1, "p"⟩, 1⟩, ⟨"b", "r2", ⟨"b", 2, "q"⟩, 2⟩]⟩ : DBState)
    "r1" "r2" (by decide) ⟨[], emptyDB⟩ "s1").2.2.2.1

/-- C1 counterexample: in room `"r"`, element `"a"` is committed (created) at
timestamp 1 and `"b"` at timestamp 2; a later update event rewrites `"a"`
with timestamp 3.  The claim demands the snapshot order `["a", "b"]`
(original creation order, unchanged by updates), but the store returns
`["b", "a"]`: `saveElement` overwrites the stored timestamp column and
`getRoomElements` orders by it, so the update moved `"a"` behind `"b"`. -/
theorem C1_counterexample :
    ((getRoomElements (applyStoreOps emptyDB
        [.save "r" ⟨"a", 1, "A1"⟩, .save "r" ⟨"b", 2, "B"⟩, .save "r" ⟨"a", 3, "A2"⟩]) "r").map
          DrawingElement.id = ["b", "a"])
    ∧ ((getRoomElements (applyStoreOps emptyDB
        [.save "r" ⟨"a", 1, "A1"⟩, .save "r" ⟨"b", 2, "B"⟩, .save "r" ⟨"a", 3, "A2"⟩]) "r").map
          DrawingElement.id ≠ ["a", "b"])
    ∧ firstCommit
        [.save "r" ⟨"a", 1, "A1"⟩, .save "r" ⟨"b", 2, "B"⟩, .save "r" ⟨"a", 3, "A2"⟩] "a"
        = some ⟨"a", 1, "A1"⟩
    ∧ firstCommit
        [.save "r" ⟨"a", 1, "A1"⟩, .save "r" ⟨"b", 2, "B"⟩, .save "r" ⟨"a", 3, "A2"⟩] "b"
        = some ⟨"b", 2, "B"⟩ := by
  refine ⟨by decide, by decide, by decide, by decide⟩

/-- C1 (amended): after any run of element-store operations starting from
the empty store, the join snapshot of room `r` has pairwise-distinct element
ids, is sorted by each element's most recently written timestamp (so an
update whose element carries a new timestamp changes the element's
position), and contains exactly the surviving latest committed version of
each id: an element belongs to the snapshot iff the replay of the run
(`lastRow`) assigns its id exactly that version in room `r`. -/
theorem C1_amended_snapshot_characterization (ops : List StoreOp) (r : String) :
    ((getRoomElements (applyStoreOps emptyDB ops) r).map DrawingElement.id).Nodup
    ∧ List.Pairwise (fun a b : DrawingElement => a.timestamp ≤ b.timestamp)
        (getRoomElements (applyStoreOps emptyDB ops) r)
    ∧ ∀ e : DrawingElement,
        e ∈ getRoomElements (applyStoreOps emptyDB ops) r
          ↔ lastRow ops e.id = some (elementRowOf r e) := by
  have hwf0 : WFRows emptyDB := fun row h => absurd h (List.not_mem_nil row)
  have hnd0 : NodupIds emptyDB := List.nodup_nil
  have hwf := WFRows_applyStoreOps hwf0 ops
  have hnd := NodupIds_applyStoreOps hnd0 ops
  refine ⟨snapshot_ids_nodup hwf hnd r, snapshot_sorted hwf r, ?_⟩
  intro e
  have hchar : rowFor (applyStoreOps emptyDB ops).elements e.id = lastRow ops e.id :=
    rowFor_applyStoreOps hnd0 ops e.id
  rw [mem_getRoomElements]
  constructor
  · rintro ⟨row, hmem, hroom, hdata⟩
    have hw := hwf row hmem
    have hrow_eq : row = elementRowOf r e := by
      rcases row with ⟨i, ro, d, t⟩
      rcases hw with ⟨hw1, hw2⟩
      simp only at hw1 hw2 hroom hdata
      rw [elementRowOf, ← hdata, hw1, hw2, hroom]
    have hfound : rowFor (applyStoreOps emptyDB ops).elements e.id = some row := by
      refine find?_of_mem_unique hmem ?_ ?_
      · rw [hrow_eq]
        simp [elementRowOf]
      · intro b hb hpb
        refine List.inj_on_of_nodup_map hnd hb hmem ?_
        rw [eq_of_beq hpb, hrow_eq]
        rfl
    rw [← hchar, hfound, hrow_eq]
  · intro h
    have hfound : rowFor (applyStoreOps emptyDB ops).elements e.id = some (elementRowOf r e) := by
      rw [hchar, h]
    exact ⟨elementRowOf r e, List.mem_of_find?_eq_some hfound, rfl, rfl⟩

/-- C2 counterexample: two update events for the same element id `"x"` in
room `"r"`.  The later-timestamped content (timestamp 5) is written first,
the earlier-timestamped content (timestamp 3) second.  The claim demands the
read to return the timestamp-5 content regardless of write order; the store
returns the timestamp-3 content, because `INSERT OR REPLACE` keeps whatever
was applied last and never compares timestamps. -/
theorem C2_counterexample :
    readElement (saveElement (saveElement emptyDB "r" ⟨"x", 5, "late"⟩) "r" ⟨"x", 3, "early"⟩)
        "r" "x" = some ⟨"x", 3, "early"⟩
    ∧ readElement (saveElement (saveElement emptyDB "r" ⟨"x", 5, "late"⟩) "r" ⟨"x", 3, "early"⟩)
        "r" "x" ≠ some ⟨"x", 5, "late"⟩ := by
  refine ⟨by decide, by decide⟩

/-- C2 (amended): the conflict between two writes to the same element id is
resolved to the write applied last, irrespective of the timestamps the two
elements carry; the other write's content is wholly discarded, never merged.
The later-timestamped event therefore wins exactly when it is the one
applied last. -/
theorem C2_amended_last_applied_write_wins (s : DBState) (r : String)
    (e1 e2 : DrawingElement) (hwf : WFRows s) (hnd : NodupIds s) (hid : e1.id = e2.id) :
    readElement (saveElement (saveElement s r e1) r e2) r e2.id = some e2 := by
  have hwf2 : WFRows (saveElement (saveElement s r e1) r e2) :=
    WFRows_saveElement (WFRows_saveElement hwf r e1) r e2
  have hnd2 : NodupIds (saveElement (saveElement s r e1) r e2) :=
    NodupIds_saveElement (NodupIds_saveElement hnd r e1) r e2
  have hmem : e2 ∈ getRoomElements (saveElement (saveElement s r e1) r e2) r := by
    rw [mem_getRoomElements]
    refine ⟨elementRowOf r e2, ?_, rfl, rfl⟩
    exact List.mem_append.mpr (Or.inr (List.mem_singleton.mpr rfl))
  unfold readElement
  refine find?_of_mem_unique hmem (by simp) ?_
  intro b hb hpb
  exact List.inj_on_of_nodup_map (snapshot_ids_nodup hwf2 hnd2 r) hb hmem (eq_of_beq hpb)

/-- Witness for C2 (amended) at the empty store: after writing timestamp 7
content and then timestamp 2 content for the id `"y"`, the read returns the
timestamp 2 content. -/
theorem C2_amended_last_applied_write_wins_witness :
    readElement (saveElement (saveElement emptyDB "w" ⟨"y", 7, "one"⟩) "w" ⟨"y", 2, "two"⟩)
        "w" "y" = some ⟨"y", 2, "two"⟩ :=
  C2_amended_last_applied_write_wins emptyDB "w" ⟨"y", 7, "one"⟩ ⟨"y", 2, "two"⟩
    (fun row h => absurd h (List.not_mem_nil row)) List.nodup_nil rfl

/-- C9: clearing a room empties its snapshot, and nothing committed before
the clear can reappear: any element found in a later snapshot of the cleared
room was re-committed by a save to that room issued after the clear. -/
theorem C9_clear_empties_and_nothing_resurrects :
    (∀ (s : DBState) (r : String), getRoomElements (clearRoomElements s r) r = [])
    ∧ (∀ (s : DBState) (r : String) (ops : List StoreOp) (e : DrawingElement),
        e ∈ getRoomElements (applyStoreOps (clearRoomElements s r) ops) r →
          StoreOp.save r e ∈ ops) := by
  constructor
  · intro s r
    unfold getRoomElements clearRoomElements
    simp only
    have hnil : (s.elements.filter (fun row => row.roomId != r)).filter
        (fun row => row.roomId == r) = [] := by
      rw [List.filter_eq_nil_iff]
      intro a ha hpa
      rcases List.mem_filter.mp ha with ⟨_, hne⟩
      rw [eq_of_beq hpa] at hne
      simp at hne
    rw [hnil]
    rfl
  · intro s r ops e he
    rcases mem_getRoomElements.mp he with ⟨row, hmem, hroom, hdata⟩
    rcases mem_elements_applyStoreOps hmem with h1 | ⟨r', e', hop, heq⟩
    · rcases List.mem_filter.mp h1 with ⟨_, hne⟩
      rw [hroom] at hne
      simp at hne
    · have hr' : r' = r := by
        rw [heq] at hroom
        exact hroom
      have he' : e' = e := by
        rw [heq] at hdata
        exact hdata
      rw [← hr', ← he']
      exact hop

/-- Witness for C9: clearing a one-element room empties its snapshot, and
the only way the element reappears is through a fresh save, exercised on a
concrete post-clear trace. -/
theorem C9_clear_empties_and_nothing_resurrects_witness :
    getRoomElements
        (clearRoomElements (⟨[], [], [], [⟨"a", "r", ⟨"a", 1, "p"⟩, 1⟩]⟩ : DBState) "r") "r" = []
    ∧ StoreOp.save "r" ⟨"n", 9, "q"⟩ ∈ [StoreOp.save "r" ⟨"n", 9, "q"⟩] :=
  ⟨C9_clear_empties_and_nothing_resurrects.1
      (⟨[], [], [], [⟨"a", "r", ⟨"a", 1, "p"⟩, 1⟩]⟩ : DBState) "r",
   C9_clear_empties_and_nothing_resurrects.2
      (⟨[], [], [], [⟨"a", "r", ⟨"a", 1, "p"⟩, 1⟩]⟩ : DBState) "r"
      [StoreOp.save "r" ⟨"n", 9, "q"⟩] ⟨"n", 9, "q"⟩ (by decide)⟩

/-- A broadcast that is never delivered to `sid`, whatever the connection
list looks like at emission time. -/
def ExcludesSender (b : Broadcast) (sid : String) : Prop :=
  ∀ conns : List Connection, sid ∉ recipientSids conns b.recipients

/-- Every `socket.to(room)` broadcast excludes its sender. -/
theorem excludesSender_roomExceptSender (evt r sid : String) :
    ExcludesSender ⟨evt, .roomExceptSender r sid⟩ sid :=
  fun conns => sender_not_mem_recipientSids conns r sid

/-- C3 counterexample: a fresh connection `"s1"` successfully joins the
public room `"r"`.  The handler emits two server-initiated events; the
second, `room-users-updated`, is emitted via `io.to(roomId)` and its
recipient set — computed over the post-join connection list — contains
`"s1"` itself, the very connection whose inbound `join-room` event
triggered the emission.  So the claimed invariant fails exactly at the
broadcast the claim singles out. -/
theorem C3_counterexample :
    ((handleJoinRoom ⟨[⟨"s1", none, none, []⟩], ⟨[⟨"r", "Room", false, none, "edit", 0⟩], [], [], []⟩⟩
        "s1" ⟨"r", none, "alice"⟩ "u1" "c" 5).2.2
      = [⟨"user-joined", .roomExceptSender "r" "s1"⟩,
         ⟨"room-users-updated", .roomAll "r"⟩])
    ∧ "s1" ∈ recipientSids
        (handleJoinRoom ⟨[⟨"s1", none, none, []⟩], ⟨[⟨"r", "Room", false, none, "edit", 0⟩], [], [], []⟩⟩
          "s1" ⟨"r", none, "alice"⟩ "u1" "c" 5).1.conns
        (Recipients.roomAll "r") := by
  refine ⟨by decide, by decide⟩

/-- C3 (amended): every server-initiated event emitted while handling a
client event goes through `socket.to(room)` and therefore never reaches the
originating connection — with the single exception of the
`room-users-updated` emitted after a successful join, which goes through
`io.to(room)` to the whole room, the newly joined originator included. -/
theorem C3_amended_broadcasts_exclude_sender (srv : ServerState) (sid : String)
    (e : DrawingElement) (roomId userId : String) (data : JoinData)
    (freshUserId freshColor : String) (now : Nat) :
    (∀ b ∈ broadcastsOf (handleDrawingStart srv sid e).2, ExcludesSender b sid)
    ∧ (∀ b ∈ broadcastsOf (handleDrawingUpdate srv sid e).2, ExcludesSender b sid)
    ∧ (∀ b ∈ broadcastsOf (handleDrawingEnd srv sid e).2, ExcludesSender b sid)
    ∧ (∀ b ∈ broadcastsOf (handleTextAdded srv sid e).2, ExcludesSender b sid)
    ∧ (∀ b ∈ broadcastsOf (handleClearCanvas srv sid).2, ExcludesSender b sid)
    ∧ (∀ b ∈ broadcastsOf (handleCursorMove srv sid).2, ExcludesSender b sid)
    ∧ (∀ b ∈ (handleUserLeave srv sid roomId userId).2, ExcludesSender b sid)
    ∧ (∀ b ∈ (handleLeaveRoom srv sid).2, ExcludesSender b sid)
    ∧ (∀ b ∈ (handleJoinRoom srv sid data freshUserId freshColor now).2.2,
        ExcludesSender b sid ∨ b = ⟨"room-users-updated", .roomAll data.roomId⟩) := by
  refine ⟨?_, ?_, ?_, ?_, ?_, ?_, ?_, ?_, ?_⟩
  · intro b hb
    unfold handleDrawingStart at hb
    cases hc : getConn srv sid with
    | none => rw [hc] at hb; cases hb
    | some c =>
      rw [hc] at hb
      dsimp only at hb
      by_cases hg : (truthy c.dataRoomId && truthy c.dataUserId) = true
      · rw [if_pos hg] at hb
        simp only [broadcastsOf, List.filterMap_cons, List.filterMap_nil] at hb
        rw [List.mem_singleton.mp hb]
        exact excludesSender_roomExceptSender _ _ _
      · rw [if_neg hg] at hb
        cases hb
  · intro b hb
    unfold handleDrawingUpdate at hb
    cases hc : getConn srv sid with
    | none => rw [hc] at hb; cases hb
    | some c =>
      rw [hc] at hb
      dsimp only at hb
      by_cases hg : (truthy c.dataRoomId && truthy c.dataUserId) = true
      · rw [if_pos hg] at hb
        simp only [broadcastsOf, List.filterMap_cons, List.filterMap_nil] at hb
        rw [List.mem_singleton.mp hb]
        exact excludesSender_roomExceptSender _ _ _
      · rw [if_neg hg] at hb
        cases hb
  · intro b hb
    unfold handleDrawingEnd at hb
    cases hc : getConn srv sid with
    | none => rw [hc] at hb; cases hb
    | some c =>
      rw [hc] at hb
      dsimp only at hb
      by_cases hg : (truthy c.dataRoomId && truthy c.dataUserId) = true
      · rw [if_pos hg] at hb
        simp only [broadcastsOf, List.filterMap_cons, List.filterMap_nil] at hb
        rw [List.mem_singleton.mp hb]
        exact excludesSender_roomExceptSender _ _ _
      · rw [if_neg hg] at hb
        cases hb
  · intro b hb
    unfold handleTextAdded at hb
    cases hc : getConn srv sid with
    | none => rw [hc] at hb; cases hb
    | some c =>
      rw [hc] at hb
      dsimp only at hb
      by_cases hg : (truthy c.dataRoomId && truthy c.dataUserId) = true
      · rw [if_pos hg] at hb
        simp only [broadcastsOf, List.filterMap_cons, List.filterMap_nil] at hb
        rw [List.mem_singleton.mp hb]
        exact excludesSender_roomExceptSender _ _ _
      · rw [if_neg hg] at hb
        cases hb
  · intro b hb
    unfold handleClearCanvas at hb
    cases hc : getConn srv sid with
    | none => rw [hc] at hb; cases hb
    | some c =>
      rw [hc] at hb
      dsimp only at hb
      by_cases hg : truthy c.dataRoomId = true
      · rw [if_pos hg] at hb
        simp only [broadcastsOf, List.filterMap_cons, List.filterMap_nil] at hb
        rw [List.mem_singleton.mp hb]
        exact excludesSender_roomExceptSender _ _ _
      · rw [if_neg hg] at hb
        cases hb
  · intro b hb
    unfold handleCursorMove at hb
    cases hc : getConn srv sid with
    | none => rw [hc] at hb; cases hb
    | some c =>
      rw [hc] at hb
      dsimp only at hb
      by_cases hg : (truthy c.dataRoomId && truthy c.dataUserId) = true
      · rw [if_pos hg] at hb
        simp only [broadcastsOf, List.filterMap_cons, List.filterMap_nil] at hb
        rw [List.mem_singleton.mp hb]
        exact excludesSender_roomExceptSender _ _ _
      · rw [if_neg hg] at hb
        cases hb
  · intro b hb
    unfold handleUserLeave at hb
    rcases List.mem_cons.mp hb with rfl | hb2
    · exact excludesSender_roomExceptSender _ _ _
    · rw [List.mem_singleton.mp hb2]
      exact excludesSender_roomExceptSender _ _ _
  · intro b hb
    unfold handleLeaveRoom at hb
    cases hc : getConn srv sid with
    | none => rw [hc] at hb; cases hb
    | some c =>
      rw [hc] at hb
      dsimp only at hb
      by_cases hg : (truthy c.dataRoomId && truthy c.dataUserId) = true
      · rw [if_pos hg] at hb
        unfold handleUserLeave at hb
        rcases List.mem_cons.mp hb with rfl | hb2
        · exact excludesSender_roomExceptSender _ _ _
        · rw [List.mem_singleton.mp hb2]
          exact excludesSender_roomExceptSender _ _ _
      · rw [if_neg hg] at hb
        cases hb
  · intro b hb
    unfold handleJoinRoom at hb
    cases hroom : getRoom srv.db data.roomId with
    | none => rw [hroom] at hb; cases hb
    | some room =>
      rw [hroom] at hb
      dsimp only at hb
      by_cases hg : (room.isPrivate && passwordStrictNeq room.password data.password) = true
      · rw [if_pos hg] at hb
        cases hb
      · rw [if_neg hg] at hb
        rcases List.mem_cons.mp hb with rfl | hb2
        · exact Or.inl (excludesSender_roomExceptSender _ _ _)
        · exact Or.inr (List.mem_singleton.mp hb2)

/-- Witness for C3 (amended): a joined connection issues `drawing-start`;
the emitted broadcast reaches nobody equal to the sender, checked on a
two-connection room. -/
theorem C3_amended_broadcasts_exclude_sender_witness :
    "s1" ∉ recipientSids
        [⟨"s1", some "r", some "u1", ["r"]⟩, ⟨"s2", some "r", some "u2", ["r"]⟩]
        (Broadcast.recipients ⟨"drawing-start", .roomExceptSender "r" "s1"⟩) :=
  (C3_amended_broadcasts_exclude_sender
      ⟨[⟨"s1", some "r", some "u1", ["r"]⟩, ⟨"s2", some "r", some "u2", ["r"]⟩], emptyDB⟩
      "s1" ⟨"z", 1, "p"⟩ "r" "u1" ⟨"r", none, "al"⟩ "u9" "c" 0).1
    ⟨"drawing-start", .roomExceptSender "r" "s1"⟩ (by decide)
    [⟨"s1", some "r", some "u1", ["r"]⟩, ⟨"s2", some "r", some "u2", ["r"]⟩]

/-- C6: for a joined session (both `socket.data` fields set and truthy),
each accepted mutation handler performs exactly one awaited durable write
followed — strictly afterwards in its action trace — by exactly one
broadcast; the broadcast targets the session's room through
`socket.to(room)`, whose recipient set, over any connection list, consists
exactly of the connections in that socket.io room other than the sender and
in particular never contains the sender.  The first five conjuncts also
record the store update each handler commits. -/
theorem C6_write_precedes_broadcast_and_targets_peers (srv : ServerState)
    (sid roomId userId : String) (e : DrawingElement) (c : Connection)
    (hc : getConn srv sid = some c) (hr : c.dataRoomId = some roomId)
    (hu : c.dataUserId = some userId) (hr0 : roomId ≠ "") (hu0 : userId ≠ "") :
    (handleDrawingStart srv sid e
      = ({ srv with db := saveElement srv.db roomId e },
         [.dbWrite "saveElement",
          .emitBroadcast ⟨"drawing-start", .roomExceptSender roomId sid⟩]))
    ∧ (handleDrawingUpdate srv sid e
      = ({ srv with db := saveElement srv.db roomId e },
         [.dbWrite "saveElement",
          .emitBroadcast ⟨"drawing-update", .roomExceptSender roomId sid⟩]))
    ∧ (handleDrawingEnd srv sid e
      = ({ srv with db := saveElement srv.db roomId e },
         [.dbWrite "saveElement",
          .emitBroadcast ⟨"drawing-end", .roomExceptSender roomId sid⟩]))
    ∧ (handleTextAdded srv sid e
      = ({ srv with db := saveElement srv.db roomId e },
         [.dbWrite "saveElement",
          .emitBroadcast ⟨"text-added", .roomExceptSender roomId sid⟩]))
    ∧ (handleClearCanvas srv sid
      = ({ srv with db := clearRoomElements srv.db roomId },
         [.dbWrite "clearRoomElements",
          .emitBroadcast ⟨"canvas-cleared", .roomExceptSender roomId sid⟩]))
    ∧ (∀ conns peer, peer ∈ recipientSids conns (.roomExceptSender roomId sid) ↔
        peer ≠ sid ∧ ∃ c' ∈ conns, c'.sid = peer ∧ roomId ∈ c'.socketRooms)
    ∧ (∀ conns, sid ∉ recipientSids conns (.roomExceptSender roomId sid)) := by
  have hg : (truthy c.dataRoomId && truthy c.dataUserId) = true := by
    rw [hr, hu]
    simp [truthy, hr0, hu0]
  have hg1 : truthy c.dataRoomId = true := by
    rw [hr]
    simp [truthy, hr0]
  refine ⟨?_, ?_, ?_, ?_, ?_,
    fun conns peer => mem_recipientSids_exceptSender,
    fun conns => sender_not_mem_recipientSids conns roomId sid⟩
  · unfold handleDrawingStart
    rw [hc]
    dsimp only
    rw [if_pos hg, hr]
    rfl
  · unfold handleDrawingUpdate
    rw [hc]
    dsimp only
    rw [if_pos hg, hr]
    rfl
  · unfold handleDrawingEnd
    rw [hc]
    dsimp only
    rw [if_pos hg, hr]
    rfl
  · unfold handleTextAdded
    rw [hc]
    dsimp only
    rw [if_pos hg, hr]
    rfl
  · unfold handleClearCanvas
    rw [hc]
    dsimp only
    rw [if_pos hg1, hr]
    rfl

/-- Witness for C6 on a concrete two-connection room: the drawing-start
trace is the write followed by the peer-only broadcast, and the sender is
not among the recipients. -/
theorem C6_write_precedes_broadcast_and_targets_peers_witness :
    (handleDrawingStart
        ⟨[⟨"s1", some "r", some "u1", ["r"]⟩, ⟨"s2", some "r", some "u2", ["r"]⟩], emptyDB⟩
        "s1" ⟨"z", 1, "p"⟩
      = (⟨[⟨"s1", some "r", some "u1", ["r"]⟩, ⟨"s2", some "r", some "u2", ["r"]⟩],
          saveElement emptyDB "r" ⟨"z", 1, "p"⟩⟩,
         [.dbWrite "saveElement",
          .emitBroadcast ⟨"drawing-start", .roomExceptSender "r" "s1"⟩]))
    ∧ "s1" ∉ recipientSids
        [⟨"s1", some "r", some "u1", ["r"]⟩, ⟨"s2", some "r", some "u2", ["r"]⟩]
        (Recipients.roomExceptSender "r" "s1") :=
  ⟨(C6_write_precedes_broadcast_and_targets_peers
      ⟨[⟨"s1", some "r", some "u1", ["r"]⟩, ⟨"s2", some "r", some "u2", ["r"]⟩], emptyDB⟩
      "s1" "r" "u1" ⟨"z", 1, "p"⟩ ⟨"s1", some "r", some "u1", ["r"]⟩
      (by decide) rfl rfl (by decide) (by decide)).1,
   (C6_write_precedes_broadcast_and_targets_peers
      ⟨[⟨"s1", some "r", some "u1", ["r"]⟩, ⟨"s2", some "r", some "u2", ["r"]⟩], emptyDB⟩
      "s1" "r" "u1" ⟨"z", 1, "p"⟩ ⟨"s1", some "r", some "u1", ["r"]⟩
      (by decide) rfl rfl (by decide) (by decide)).2.2.2.2.2.2
     [⟨"s1", some "r", some "u1", ["r"]⟩, ⟨"s2", some "r", some "u2", ["r"]⟩]⟩
